import Mathlib

set_option maxRecDepth 8192
set_option maxHeartbeats 1000000

/-!  Shallow embedding of `src/core/thread.py` (modmail thread lifecycle and
relay engine).  Character-list helpers mirror the Python string primitives the
source relies on (`str.startswith`, `in`, `urllib.parse.urlparse`, the two
regular expressions), the attachment classification pipeline mirrors
`Thread.send`, and the closure state machine / registry operations mirror
`Thread.close`, `Thread._close`, `Thread.cancel_closure`, `Thread.reply`,
`ThreadManager.find`, `ThreadManager._find_from_channel`,
`ThreadManager.create` and `ThreadManager._format_channel_name`.
External collaborators (discord transport, config store, audit-log API) are
modelled as explicit inputs: their results are parameters, their calls are
recorded as events. -/

namespace Modmail

/-- Does `p` occur as a leading segment of `l`?  Mirrors Python
`str.startswith` on explicit character lists. -/
def startsWithL : List Char → List Char → Bool
  | [], _ => true
  | _ :: _, [] => false
  | p :: ps, c :: cs => p == c && startsWithL ps cs

/-- Does `p` occur as a contiguous segment of `l`?  Mirrors Python
substring test `p in l`. -/
def containsL (p : List Char) : List Char → Bool
  | [] => startsWithL p []
  | c :: cs => startsWithL p (c :: cs) || containsL p cs

/-- Does `p` occur as a trailing segment of `l`?  Mirrors Python
`str.endswith`. -/
def endsWithL (p l : List Char) : Bool :=
  startsWithL p.reverse l.reverse

/-- The characters accepted inside a URL scheme by `urllib.parse`
(`scheme_chars`). -/
def pySchemeChars : List Char :=
  "abcdefghijklmnopqrstuvwxyzABCDEFGHIJKLMNOPQRSTUVWXYZ0123456789+-.".toList

/-- Strip a leading `scheme:` from a URL the way `urllib.parse.urlsplit`
does: the text before the first `:` must be non-empty and consist of scheme
characters only. -/
def stripScheme (u : List Char) : List Char :=
  let pre := u.takeWhile (fun c => c != ':')
  if pre.length < u.length && decide (0 < pre.length) &&
      pre.all (fun c => pySchemeChars.contains c) then
    u.drop (pre.length + 1)
  else u

/-- Strip a leading `//netloc` component the way `urllib.parse.urlsplit`
does: the authority extends to the first `/`, `?` or `#`. -/
def stripNetloc (u : List Char) : List Char :=
  if startsWithL ['/', '/'] u then
    let rest := u.drop 2
    let netloc := rest.takeWhile (fun c => !(c == '/' || c == '?' || c == '#'))
    rest.drop netloc.length
  else u

/-- Split `;parameters` off the last path segment the way
`urllib.parse.urlparse` (`_splitparams`) does. -/
def splitParams (path : List Char) : List Char :=
  if path.contains ';' then
    if path.contains '/' then
      let seg := (path.reverse.takeWhile (fun c => c != '/')).reverse
      if seg.contains ';' then
        path.take (path.length - seg.length) ++ seg.takeWhile (fun c => c != ';')
      else path
    else path.takeWhile (fun c => c != ';')
  else path

/-- The `.path` component of `urllib.parse.urlparse` for a URL given as a
character list: scheme and netloc stripped, fragment and query cut off,
parameters split from the last segment. -/
def urlPathL (u : List Char) : List Char :=
  let u := stripNetloc (stripScheme u)
  let u := u.takeWhile (fun c => c != '#')
  let u := u.takeWhile (fun c => c != '?')
  splitParams u

/-- The image extensions recognised by `Thread.send`
(`image_types = ['.png', '.jpg', '.gif', '.jpeg', '.webp']`). -/
def image_types : List (List Char) :=
  [".png".toList, ".jpg".toList, ".gif".toList, ".jpeg".toList, ".webp".toList]

/-- Function `is_image_url` from `Thread.send`: the URL, lowercased, has a path ending
in one of the recognised image extensions. -/
def is_image_urlL (u : List Char) : Bool :=
  image_types.any (fun x => endsWithL x (urlPathL (u.map Char.toLower)))

/-- String-level wrapper of `is_image_urlL`; the second argument (the
filename) is ignored, exactly as in the source. -/
def is_image_url (u : String) (_fname : Option String) : Bool :=
  is_image_urlL u.toList

/-- Python `\s` class for the URL-matching regular expression. -/
def isPySpace (c : Char) : Bool :=
  c == ' ' || c == '\t' || c == '\n' || c == '\r' || c == '\x0b' || c == '\x0c'

/-- Split a character list into its maximal runs of non-whitespace
characters. -/
def splitWsAux (acc : List Char) : List Char → List (List Char)
  | [] => if acc.isEmpty then [] else [acc.reverse]
  | c :: cs =>
    if isPySpace c then
      if acc.isEmpty then splitWsAux [] cs else acc.reverse :: splitWsAux [] cs
    else splitWsAux (c :: acc) cs

/-- The single match produced inside one whitespace-free token by the regex
`(https?://[^\s]+)`: the suffix starting at the earliest occurrence of
`http://` or `https://`, provided at least one character follows the
marker. -/
def urlMatch : List Char → Option (List Char)
  | [] => none
  | c :: cs =>
    if (startsWithL ("http://".toList) (c :: cs) && decide (7 < (c :: cs).length)) ||
        (startsWithL ("https://".toList) (c :: cs) && decide (8 < (c :: cs).length)) then
      some (c :: cs)
    else urlMatch cs

/-- Result of `re.findall` with the URL pattern on the content: all URL matches of the
message body, in order. -/
def findUrls (content : String) : List (List Char) :=
  (splitWsAux [] content.toList).filterMap urlMatch

/-- Python truthiness of an optional string (`att[1]` in the image loop):
`None` and the empty string are falsy. -/
def pyTruthy : Option String → Bool
  | none => false
  | some s => s != ""

/-- The data of one inbound message that `Thread.send` classifies: the text
body and the uploaded attachments as `(url, filename)` pairs. -/
structure Message where
  content : String
  attachments : List (String × String)
deriving DecidableEq

/-- The image-classification state threaded through the `for att in images`
loop of `Thread.send`: the embed current image, the `embedded_image` flag,
the `additional_count` counter and the accumulated `Additional Image upload`
fields. -/
structure ImgState where
  imageUrl : Option (List Char) := none
  embedded : Bool := false
  count : Nat := 1
  fields : List (String × String) := []
deriving DecidableEq

/-- The markdown link `[filename](url)` built for an additional image
field. -/
def imgLink (att : List Char × Option String) : String :=
  match att.2 with
  | some f => "[" ++ f ++ "](" ++ String.mk att.1 ++ ")"
  | none => ""

/-- One iteration of the image loop of `Thread.send`: embed the candidate
when uploads are not prioritized, or when it is an un-embedded truthy-named
image; otherwise add an `Additional Image upload (N)` field for uploads and
drop bare links. -/
def procStep (prioritize : Bool) (s : ImgState) (att : List Char × Option String) :
    ImgState :=
  if !prioritize || (is_image_urlL att.1 && !s.embedded && pyTruthy att.2) then
    { s with imageUrl := some att.1, embedded := true }
  else if att.2.isSome then
    { s with
      fields := s.fields ++
        [("Additional Image upload (" ++ toString s.count ++ ")", imgLink att)],
      count := s.count + 1 }
  else s

/-- The image loop of `Thread.send`, iterated over the candidate list. -/
def procImages (prioritize : Bool) (s : ImgState) : List (List Char × Option String) →
    ImgState
  | [] => s
  | a :: rest => procImages prioritize (procStep prioritize s a) rest

/-- Run the image loop of `Thread.send` on a combined candidate list, with
`prioritize_uploads = any(i[1] is not None for i in images)` computed exactly
as in the source. -/
def processImages (images : List (List Char × Option String)) : ImgState :=
  procImages (images.any (fun a => a.2.isSome)) {} images

/-- The combined image-candidate list of `Thread.send`: uploaded attachments
that pass the image test (keeping their filename), followed by bare links
found in the text that pass the image test (with no filename). -/
def extractImages (m : Message) : List (List Char × Option String) :=
  let attachments := m.attachments.map (fun a => (a.1.toList, a.2))
  let images := attachments.filter (fun a => is_image_urlL a.1)
  let image_links := (findUrls m.content).filter (fun l => is_image_urlL l)
  images.map (fun a => (a.1, some a.2)) ++ image_links.map (fun l => (l, none))

/-- The non-image attachments of a message, which the second loop of
`Thread.send` renders as `File upload (N)` fields. -/
def nonImageAtts (m : Message) : List (String × String) :=
  m.attachments.filter (fun a => !is_image_urlL a.1.toList)

/-- The `File upload (N)` loop of `Thread.send`, starting its counter at
`n`. -/
def fileFields (n : Nat) : List (String × String) → List (String × String)
  | [] => []
  | a :: rest =>
    ("File upload (" ++ toString n ++ ")", "[" ++ a.2 ++ "](" ++ a.1 ++ ")") ::
      fileFields (n + 1) rest

/-- Modelled from the words of the spec for comparison: the expected numbered
`Additional Image upload` fields for a list of candidates, numbering from
`n`. -/
def specAdditionalFrom (n : Nat) : List (List Char × Option String) →
    List (String × String)
  | [] => []
  | a :: rest =>
    ("Additional Image upload (" ++ toString n ++ ")", imgLink a) ::
      specAdditionalFrom (n + 1) rest

/-- Modelled from the words of the spec for comparison: every non-image attachment
paired with its index (numbering from `n`) becomes a numbered `File upload`
field. -/
def specFileFrom (n : Nat) (l : List (String × String)) : List (String × String) :=
  (l.enumFrom n).map (fun p =>
    ("File upload (" ++ toString p.1 ++ ")", "[" ++ p.2.2 ++ "](" ++ p.2.1 ++ ")"))

/-- Decidable equality for `Except`, needed so that concrete operation
results can be evaluated by `decide`. -/
instance {ε α : Type} [DecidableEq ε] [DecidableEq α] : DecidableEq (Except ε α) :=
  fun a b =>
    match a, b with
    | Except.error e, Except.error f =>
      if h : e = f then isTrue (by rw [h]) else isFalse (by simp [h])
    | Except.error _, Except.ok _ => isFalse (by simp)
    | Except.ok _, Except.error _ => isFalse (by simp)
    | Except.ok x, Except.ok y =>
      if h : x = y then isTrue (by rw [h]) else isFalse (by simp [h])

/-- The Python exceptions the embedded operations can raise. -/
inductive PyErr where
  | keyError
  | indexError
  | userInputError
  | generic (msg : String)
deriving DecidableEq

/-- The externally visible side effects of the embedded operations, in
program order. -/
inductive Event where
  | timerCancel
  | configUpdate
  | postLog
  | printError (msg : String)
  | logChannelSend
  | recipientSend
  | deleteChannel
  | cancelNotice
  | unreachableNotice
  | appendLog
  | triggerTyping
  | destSend
  | deleteOriginal
  | createChannel
  | topicEdit (topic : String)
  | infoSend
  | pinMessage
  | welcomeSend
deriving DecidableEq

/-- The persisted pending-closure record written by `Thread.close` when a
delay is requested (`items` in the source). -/
structure ClosureItems where
  time : Nat
  closer_id : Nat
  silent : Bool
  delete_channel : Bool
  message : Option String
deriving DecidableEq

/-- The per-thread state: correspondent id, whether the recipient handle is
resolvable, the readiness gate and the armed close-timer handle. -/
structure ThreadSt where
  id : Nat
  recipientSome : Bool
  ready : Bool
  closeTask : Option Unit
deriving DecidableEq

/-- The shared bot state the thread operations mutate: the registry cache
(as its set of correspondent ids), the persisted pending closures, the
subscription keys and the one-shot notification list. -/
structure BotSt where
  cache : List Nat
  closures : List (Nat × ClosureItems)
  subscriptions : List Nat
  notification_squad : List Nat
deriving DecidableEq

/-- The record the audit-log service returns on a successful
`post_log`. -/
structure LogData where
  logId : String
  messages : List String
deriving DecidableEq

end Modmail

namespace Modmail.Thread

/-- Mirrors `Thread.cancel_closure`: cancel and clear the timer handle when present,
pop the persisted pending-closure record, and flush the config only when a
record was actually removed. -/
def cancel_closure (t : ThreadSt) (b : BotSt) : ThreadSt × BotSt × List Event :=
  let tev :=
    match t.closeTask with
    | some _ => ({ t with closeTask := none }, [Event.timerCancel])
    | none => (t, ([] : List Event))
  let popped := (b.closures.find? (fun p => p.1 == tev.1.id)).isSome
  let b := { b with closures := b.closures.filter (fun p => p.1 != tev.1.id) }
  (tev.1, b, tev.2 ++ if popped then [Event.configUpdate] else [])

/-- The outcome of a finalization: the thread and bot state after the call,
the side effects in order, and the exception if one escaped. -/
structure CloseRes where
  thread : ThreadSt
  bot : BotSt
  events : List Event
  err : Option PyErr
deriving DecidableEq

/-- Mirrors `Thread._close`: evict the thread from the registry cache, cancel any
pending closure, drop the subscription entry, then write the audit log.  If
the audit write returns an error payload (a string), print it and return;
otherwise dispatch the staff-feed summary, the config flush, the closing
notice to the recipient (unless silent or unreachable) and the channel
deletion (unless suppressed). -/
def _close (t : ThreadSt) (b : BotSt) (_closerId : Nat) (silent : Bool)
    (delete_channel : Bool) (_message : Option String) (_scheduled : Bool)
    (logRes : Except String LogData) : CloseRes :=
  if t.id ∈ b.cache then
    let b := { b with cache := b.cache.filter (fun i => i != t.id) }
    let r := cancel_closure t b
    let t := r.1
    let b := { r.2.1 with subscriptions := r.2.1.subscriptions.filter (fun i => i != t.id) }
    match logRes with
    | Except.error s =>
      { thread := t, bot := b, events := r.2.2 ++ [Event.postLog, Event.printError s],
        err := none }
    | Except.ok _ =>
      let tasks := [Event.logChannelSend, Event.configUpdate]
        ++ (if !silent && t.recipientSome then [Event.recipientSend] else [])
        ++ (if delete_channel then [Event.deleteChannel] else [])
      { thread := t, bot := b, events := r.2.2 ++ [Event.postLog] ++ tasks, err := none }
  else
    { thread := t, bot := b, events := [], err := some PyErr.keyError }

/-- Mirrors `Thread.close`: always cancel any pending closure first; with a positive
delay persist a pending-closure record and arm the timer, otherwise finalize
immediately through `_close`. -/
def close (t : ThreadSt) (b : BotSt) (closerId : Nat) (now : Nat) (after : Nat)
    (silent : Bool) (delete_channel : Bool) (message : Option String)
    (logRes : Except String LogData) : CloseRes :=
  let r := cancel_closure t b
  let t := r.1
  let b := r.2.1
  let ev := r.2.2
  if 0 < after then
    let items : ClosureItems :=
      { time := now + after, closer_id := closerId, silent := silent,
        delete_channel := delete_channel, message := message }
    let b := { b with closures := (t.id, items) :: b.closures.filter (fun p => p.1 != t.id) }
    { thread := { t with closeTask := some () }, bot := b,
      events := ev ++ [Event.configUpdate, Event.configUpdate], err := none }
  else
    let rc := _close t b closerId silent delete_channel message false logRes
    { rc with events := ev ++ rc.events }

/-- The outcome of a relay call that cannot raise. -/
structure SendRes where
  thread : ThreadSt
  bot : BotSt
  events : List Event
deriving DecidableEq

/-- The stateful skeleton of `Thread.send`: cancel a pending closure (with a
cancellation notice) if one is armed, dispatch the audit-log append, read and
clear the one-shot notification list for correspondent messages, send the
mirrored card, and delete the original when it carried no attachments. -/
def send (t : ThreadSt) (b : BotSt) (m : Message) (destIsUser : Bool)
    (from_mod : Bool) : SendRes :=
  let r :=
    match t.closeTask with
    | some _ =>
      let rc := cancel_closure t b
      (rc.1, rc.2.1, rc.2.2 ++ [Event.cancelNotice])
    | none => (t, b, ([] : List Event))
  let t := r.1
  let b := r.2.1
  let ev1 := r.2.2
  let ev2 :=
    if from_mod && !destIsUser then [Event.appendLog]
    else if !from_mod then [Event.appendLog]
    else []
  let delete_message := m.attachments.isEmpty
  let bev :=
    if !from_mod then
      if b.notification_squad.contains t.id then
        ({ b with notification_squad := b.notification_squad.filter (fun i => i != t.id) },
          [Event.configUpdate])
      else (b, ([] : List Event))
    else (b, ([] : List Event))
  let ev4 := if delete_message then [Event.deleteOriginal] else []
  { thread := t, bot := bev.1,
    events := ev1 ++ ev2 ++ [Event.triggerTyping] ++ bev.2 ++ [Event.destSend] ++ ev4 }

/-- The outcome of `Thread.reply`, which can raise a validation error. -/
structure ReplyRes where
  thread : ThreadSt
  bot : BotSt
  events : List Event
  err : Option PyErr
deriving DecidableEq

/-- Mirrors `Thread.reply`: reject a message with neither text nor attachments;
short-circuit with a staff notice when the correspondent shares no guild;
otherwise cancel a pending closure (posting one cancellation notice at
gather time) and relay the message to the thread channel and to the
recipient. -/
def reply (t : ThreadSt) (b : BotSt) (m : Message) (sharesGuild : Bool) : ReplyRes :=
  if m.content == "" && m.attachments.isEmpty then
    { thread := t, bot := b, events := [], err := some PyErr.userInputError }
  else if !sharesGuild then
    { thread := t, bot := b, events := [Event.unreachableNotice], err := none }
  else
    let armed := t.closeTask.isSome
    let rc := if armed then cancel_closure t b else (t, b, [])
    let r1 := send rc.1 rc.2.1 m false true
    let r2 := send r1.thread r1.bot m true true
    let evN := if armed then [Event.cancelNotice] else ([] : List Event)
    { thread := r2.thread, bot := r2.bot,
      events := rc.2.2 ++ r1.events ++ r2.events ++ evN, err := none }

end Modmail.Thread

namespace Modmail

/-- A structured card as seen by the recovery scan: only its footer text
matters. -/
structure EmbedM where
  footerText : String
deriving DecidableEq

/-- One item of a history of the channel: its list of structured cards. -/
structure HistMsg where
  embeds : List EmbedM
deriving DecidableEq

/-- A staff-side channel: its optional topic string and its recent
history, newest first. -/
structure Channel where
  topic : Option String
  history : List HistMsg
deriving DecidableEq

/-- Convert a run of decimal digits to the integer Python `int` yields on
it. -/
def natFromDigits (ds : List Char) : Nat :=
  ds.foldl (fun n c => n * 10 + (c.toNat - 48)) 0

/-- The literal `"User ID: "` used in channel topics and genesis-card
footers. -/
def userIdPat : List Char := "User ID: ".toList

/-- The first match of `re.findall(r'User ID: (\d+)', text)`: scan for the
earliest position where the literal is followed by at least one digit, and
return that maximal digit run. -/
def findUserId : List Char → Option (List Char)
  | [] => none
  | c :: cs =>
    if startsWithL userIdPat (c :: cs) then
      let ds := ((c :: cs).drop userIdPat.length).takeWhile Char.isDigit
      if ds.isEmpty then findUserId cs else some ds
    else findUserId cs

/-- The first match of `re.findall(r'\d+', text)`: the earliest maximal digit
run, if any. -/
def firstDigitRun (l : List Char) : Option (List Char) :=
  let ds := (l.dropWhile (fun c => !c.isDigit)).takeWhile Char.isDigit
  if ds.isEmpty then none else some ds

end Modmail

namespace Modmail.ThreadManager

/-- The genesis test applied to one history item by
`ThreadManager._find_from_channel`: the first embed footer is searched for
`User ID: (\d+)`. -/
def msgMatch (m : HistMsg) : Option Nat :=
  match m.embeds with
  | [] => none
  | em :: _ => (findUserId em.footerText.toList).map natFromDigits

/-- The bounded history scan of `_find_from_channel`
(`channel.history(limit=50)`): the first genesis match among the first
`limit` items. -/
def scanHistory : Nat → List HistMsg → Option Nat
  | 0, _ => none
  | _, [] => none
  | limit + 1, m :: rest =>
    match msgMatch m with
    | some n => some n
    | none => scanHistory limit rest

/-- The outcome of a channel-based lookup: the recovered corresponding
correspondent id (or `none`), or an escaped exception, plus the bot state. -/
structure FindChRes where
  res : Except PyErr (Option Nat)
  bot : BotSt
deriving DecidableEq

/-- Mirrors `ThreadManager._find_from_channel`: read the topic for an embedded id
(the first digit run, when the topic is non-empty and carries the literal);
only when the topic is `None` fall back to scanning the last 50 history
items for a genesis card; cache the reconstructed thread when the id is
fresh. -/
def _find_from_channel (b : BotSt) (ch : Channel) : FindChRes :=
  let uid : Except PyErr (Option Nat) :=
    match ch.topic with
    | some t =>
      if t != "" && containsL userIdPat t.toList then
        match firstDigitRun t.toList with
        | some ds => Except.ok (some (natFromDigits ds))
        | none => Except.error PyErr.indexError
      else Except.ok none
    | none => Except.ok (scanHistory 50 ch.history)
  match uid with
  | Except.error e => { res := Except.error e, bot := b }
  | Except.ok none => { res := Except.ok none, bot := b }
  | Except.ok (some n) =>
    if n ∈ b.cache then { res := Except.ok (some n), bot := b }
    else { res := Except.ok (some n), bot := { b with cache := n :: b.cache } }

/-- The outcome of a recipient-based lookup. -/
structure FindRes where
  res : Except PyErr (Option Nat)
  bot : BotSt
deriving DecidableEq

/-- Mirrors `ThreadManager.find(recipient=...)`: try the cache, on a `KeyError` look
for a channel whose topic encodes the id (the channel list itself is an
external call that may raise).  The control outcome of the body — including any
pending exception — is computed first; the `finally: return thread` clause
then discards the pending exception and returns whatever `thread` is bound
to, exactly as CPython does. -/
def find (b : BotSt) (rid : Nat) (channelsRes : Except PyErr (List Channel)) : FindRes :=
  let body : Option Nat × BotSt × Option PyErr :=
    if rid ∈ b.cache then (some rid, b, none)
    else
      match channelsRes with
      | Except.error e => (none, b, some e)
      | Except.ok chans =>
        match chans.find? (fun c => c.topic == some ("User ID: " ++ toString rid)) with
        | some _ => (some rid, { b with cache := rid :: b.cache }, none)
        | none => (none, b, none)
  { res := Except.ok body.1, bot := body.2.1 }

/-- The outcome of `ThreadManager.create`: the new thread or the escaped
provisioning exception, the bot state after the call, and the side
effects. -/
structure CreateRes where
  thread : Except PyErr ThreadSt
  bot : BotSt
  events : List Event
deriving DecidableEq

/-- Mirrors `ThreadManager.create`: queue the welcome notice when the correspondent
opened the thread themselves, insert the thread into the registry cache,
then provision the backing channel — a call that may raise, and whose
failure propagates with the cache entry left in place — and finally write
the topic, post and pin the informational summary, and mark the thread
ready. -/
def create (b : BotSt) (rid : Nat) (creator : Option Nat)
    (chanRes : Except PyErr Nat) (_logUrl : String) (userLogsOpen : List Bool) :
    CreateRes :=
  let ev0 := if creator.isNone then [Event.welcomeSend] else ([] : List Event)
  let b := { b with cache := rid :: b.cache.filter (fun i => i != rid) }
  match chanRes with
  | Except.error e => { thread := Except.error e, bot := b, events := ev0 }
  | Except.ok _chId =>
    let _log_count := (userLogsOpen.filter (fun o => !o)).length
    let topic := "User ID: " ++ toString rid
    let t : ThreadSt := { id := rid, recipientSome := true, ready := true, closeTask := none }
    { thread := Except.ok t, bot := b,
      events := ev0 ++ [Event.createChannel, Event.topicEdit topic, Event.infoSend,
        Event.pinMessage] }

/-- Python `string.ascii_lowercase`. -/
def ascii_lowercase : List Char := "abcdefghijklmnopqrstuvwxyz".toList

/-- Python `string.ascii_uppercase`. -/
def ascii_uppercase : List Char := "ABCDEFGHIJKLMNOPQRSTUVWXYZ".toList

/-- Python `string.ascii_letters`. -/
def ascii_letters : List Char := ascii_lowercase ++ ascii_uppercase

/-- Python `string.digits`. -/
def ascii_digits : List Char := "0123456789".toList

/-- The `allowed` character set of `_format_channel_name`
(`string.ascii_letters + string.digits + '-'`). -/
def allowedChars : List Char := ascii_letters ++ ascii_digits ++ ['-']

/-- The sanitised base name of `_format_channel_name`: the handle of the author
lowercased, filtered to the allowed set, `"null"` when the filter leaves
nothing, suffixed with `-{discriminator}`. -/
def _format_channel_name_base (authorName disc : List Char) : List Char :=
  let name := authorName.map Char.toLower
  let new_name := name.filter (fun c => decide (c ∈ allowedChars))
  let new_name := if new_name.isEmpty then "null".toList else new_name
  new_name ++ '-' :: disc

/-- The collision loop of `_format_channel_name`
(`while new_name in [...]: new_name += '-x'`), driven by explicit fuel; the
caller supplies enough fuel for the loop to terminate. -/
def uniquify : Nat → List Char → List (List Char) → List Char
  | 0, n, _ => n
  | fuel + 1, n, existing =>
    if n ∈ existing then uniquify fuel (n ++ "-x".toList) existing else n

/-- Mirrors `ThreadManager._format_channel_name` against the given list of existing
channel names. -/
def _format_channel_name (authorName disc : List Char) (existing : List (List Char)) :
    List Char :=
  uniquify (existing.length + 1) (_format_channel_name_base authorName disc) existing

/-- Modelled from the words of the spec for comparison: the character class
`[a-z0-9-]`. -/
def specAllowedChars : List Char := ascii_lowercase ++ ascii_digits ++ ['-']

/-- Modelled from the words of the spec for comparison: the handle lowercased,
filtered to `[a-z0-9-]`, `"null"` if empty, suffixed with the
discriminator. -/
def specChannelBase (authorName disc : List Char) : List Char :=
  let f := (authorName.map Char.toLower).filter (fun c => decide (c ∈ specAllowedChars))
  (if f.isEmpty then "null".toList else f) ++ '-' :: disc

end Modmail.ThreadManager

namespace Modmail

/-- Closed form of `cancel_closure`: the timer handle is cleared, the
pending-closure entries keyed by the thread are removed, and the side
effects are the timer cancellation (when armed) followed by the config flush
(when a record was removed). -/
theorem cancel_closure_eq (t : ThreadSt) (b : BotSt) :
    Thread.cancel_closure t b =
      ({ t with closeTask := none },
        { b with closures := b.closures.filter (fun p => p.1 != t.id) },
        (match t.closeTask with
          | some _ => [Event.timerCancel]
          | none => []) ++
          (if (b.closures.find? (fun p => p.1 == t.id)).isSome then
            [Event.configUpdate] else [])) := by
  obtain ⟨tid, trs, trd, tct⟩ := t
  cases tct <;> simp [Thread.cancel_closure]

/-- Searching for a key in a list just purged of that key finds nothing. -/
theorem find?_filter_ne {α : Type} (l : List (Nat × α)) (k : Nat) :
    (l.filter (fun p => p.1 != k)).find? (fun p => p.1 == k) = none := by
  apply List.find?_eq_none.mpr
  intro x hx
  have hne := (List.mem_filter.mp hx).2
  simp only [bne_iff_ne, ne_eq] at hne
  simp [hne]

/-- A key is absent after purging it from a key list. -/
theorem not_mem_filter_ne (l : List Nat) (k : Nat) :
    k ∉ l.filter (fun i => i != k) := by
  intro h
  have := (List.mem_filter.mp h).2
  simp at this

/-- Purging a key twice is the same as purging it once. -/
theorem filter_ne_idem {α : Type} (l : List (Nat × α)) (k : Nat) :
    (l.filter (fun p => p.1 != k)).filter (fun p => p.1 != k) =
      l.filter (fun p => p.1 != k) := by
  apply List.filter_eq_self.mpr
  intro p hp
  exact (List.mem_filter.mp hp).2

/-- C9: `cancel_closure` clears the timer handle and removes the persisted
pending-closure record; running it again right away is a pure no-op with no
side effects; and when nothing was pending in the first place the call
changes no state and produces no side effects (and cannot raise). -/
theorem claim9_cancel_closure_idempotent (t : ThreadSt) (b : BotSt) :
    ((Thread.cancel_closure t b).1.closeTask = none ∧
      (Thread.cancel_closure t b).2.1.closures.find? (fun p => p.1 == t.id) = none) ∧
    Thread.cancel_closure (Thread.cancel_closure t b).1 (Thread.cancel_closure t b).2.1 =
      ((Thread.cancel_closure t b).1, (Thread.cancel_closure t b).2.1, []) ∧
    (t.closeTask = none ∧ b.closures.find? (fun p => p.1 == t.id) = none →
      Thread.cancel_closure t b = (t, b, [])) := by
  refine ⟨⟨?_, ?_⟩, ?_, ?_⟩
  · rw [cancel_closure_eq]
  · rw [cancel_closure_eq]
    exact find?_filter_ne b.closures t.id
  · simp only [cancel_closure_eq, find?_filter_ne, filter_ne_idem, Option.isSome_none,
      Bool.false_eq_true, if_false, List.append_nil]
  · rintro ⟨h1, h2⟩
    have hfilter : b.closures.filter (fun p => p.1 != t.id) = b.closures := by
      apply List.filter_eq_self.mpr
      intro p hp
      have := List.find?_eq_none.mp h2 p hp
      simpa using this
    obtain ⟨tid, trs, trd, tct⟩ := t
    simp only at h1 h2 hfilter
    subst h1
    rw [cancel_closure_eq]
    simp only at hfilter ⊢
    rw [hfilter, h2]
    simp

/-- C9 witness: on a thread with no armed timer and no persisted record the
call is a pure no-op. -/
theorem claim9_witness :
    Thread.cancel_closure { id := 5, recipientSome := true, ready := true, closeTask := none }
        { cache := [5], closures := [], subscriptions := [], notification_squad := [] } =
      ({ id := 5, recipientSome := true, ready := true, closeTask := none },
        { cache := [5], closures := [], subscriptions := [], notification_squad := [] }, []) :=
  (claim9_cancel_closure_idempotent _ _).2.2 ⟨rfl, by decide⟩

end Modmail

namespace Modmail

/-- C7: when the audit-log write returns an error payload, finalization
aborts before any destructive step — no channel deletion, no closing notice
to the correspondent, no closure summary on the staff log feed. -/
theorem claim7_close_abort_no_destruction (t : ThreadSt) (b : BotSt) (closerId : Nat)
    (silent delete_channel : Bool) (message : Option String) (scheduled : Bool)
    (s : String) (hmem : t.id ∈ b.cache) :
    Event.deleteChannel ∉
      (Thread._close t b closerId silent delete_channel message scheduled
        (Except.error s)).events ∧
    Event.recipientSend ∉
      (Thread._close t b closerId silent delete_channel message scheduled
        (Except.error s)).events ∧
    Event.logChannelSend ∉
      (Thread._close t b closerId silent delete_channel message scheduled
        (Except.error s)).events := by
  cases hct : t.closeTask <;>
    cases hp : (b.closures.find? (fun p => p.1 == t.id)).isSome <;>
      simp [Thread._close, if_pos hmem, cancel_closure_eq, hct, hp, List.mem_append]

/-- C7 witness. -/
theorem claim7_witness :
    Event.deleteChannel ∉
      (Thread._close { id := 3, recipientSome := true, ready := true, closeTask := none }
        { cache := [3], closures := [], subscriptions := [], notification_squad := [] }
        9 false true none false (Except.error "oops")).events :=
  (claim7_close_abort_no_destruction _ _ 9 false true none false "oops" (by decide)).1

/-- C1 (amended): an immediate close whose audit-log write fails raises
nothing and performs no destructive step (no channel deletion, no
correspondent notice), but the thread has already been evicted from the
registry cache — the eviction happens before the audit write, so the thread
is *not* left present for a retry. -/
theorem claim1_close0_failing_log (t : ThreadSt) (b : BotSt) (closerId now : Nat)
    (silent delete_channel : Bool) (message : Option String) (s : String)
    (hmem : t.id ∈ b.cache) :
    (Thread.close t b closerId now 0 silent delete_channel message
      (Except.error s)).err = none ∧
    t.id ∉ (Thread.close t b closerId now 0 silent delete_channel message
      (Except.error s)).bot.cache ∧
    Event.deleteChannel ∉ (Thread.close t b closerId now 0 silent delete_channel message
      (Except.error s)).events ∧
    Event.recipientSend ∉ (Thread.close t b closerId now 0 silent delete_channel message
      (Except.error s)).events := by
  cases hct : t.closeTask <;>
    cases hp : (b.closures.find? (fun p => p.1 == t.id)).isSome <;>
      simp [Thread.close, Thread._close, if_pos hmem, cancel_closure_eq, hct, hp,
        List.mem_append, find?_filter_ne, not_mem_filter_ne]

/-- C1 witness for the amended statement. -/
theorem claim1_witness :
    1 ∉ (Thread.close { id := 1, recipientSome := true, ready := true, closeTask := none }
      { cache := [1], closures := [], subscriptions := [], notification_squad := [] }
      99 0 0 false true none (Except.error "server error")).bot.cache :=
  (claim1_close0_failing_log _ _ 99 0 false true none "server error" (by decide)).2.1

/-- C1 counterexample to the claim as stated: with the thread registered and
the audit write failing, `close(delay=0)` leaves the thread *absent* from the
registry cache, not present. -/
theorem claim1_counterexample :
    ¬ (1 ∈ (Thread.close { id := 1, recipientSome := true, ready := true, closeTask := none }
      { cache := [1], closures := [], subscriptions := [], notification_squad := [] }
      99 0 0 false true none (Except.error "server error")).bot.cache) := by
  decide

/-- C2: a channel-provisioning failure in `ThreadManager.create` propagates
the exception while the freshly inserted registry-cache entry for the
correspondent stays in place — the insert is not rolled back. -/
theorem claim2_create_no_rollback (b : BotSt) (rid : Nat) (creator : Option Nat)
    (e : PyErr) (logUrl : String) (logs : List Bool) :
    (ThreadManager.create b rid creator (Except.error e) logUrl logs).thread =
      Except.error e ∧
    rid ∈ (ThreadManager.create b rid creator (Except.error e) logUrl logs).bot.cache := by
  constructor <;> simp [ThreadManager.create]

/-- C10: `ThreadManager.find(recipient=...)` never propagates an exception —
the `finally: return thread` discards any pending error — and a failing
channel-list lookup is indistinguishable from the case where no channel
matches: both return `None` with the registry unchanged. -/
theorem claim10_find_swallows (b : BotSt) (rid : Nat)
    (chRes : Except PyErr (List Channel)) :
    (∃ v, (ThreadManager.find b rid chRes).res = Except.ok v) ∧
    (∀ e : PyErr, rid ∉ b.cache →
      ThreadManager.find b rid (Except.error e) = ThreadManager.find b rid (Except.ok []) ∧
      (ThreadManager.find b rid (Except.error e)).res = Except.ok none ∧
      (ThreadManager.find b rid (Except.error e)).bot = b) := by
  refine ⟨⟨_, rfl⟩, ?_⟩
  intro e h
  refine ⟨?_, ?_, ?_⟩ <;> simp [ThreadManager.find, h]

/-- C10 witness: a failing lookup for an uncached recipient returns `None`
exactly like an empty channel list does. -/
theorem claim10_witness :
    ThreadManager.find
        { cache := [], closures := [], subscriptions := [], notification_squad := [] }
        7 (Except.error PyErr.keyError) =
      ThreadManager.find
        { cache := [], closures := [], subscriptions := [], notification_squad := [] }
        7 (Except.ok []) :=
  ((claim10_find_swallows _ 7 (Except.error PyErr.keyError)).2 PyErr.keyError
    (by decide)).1

end Modmail

namespace Modmail

/-- A relay through `send` on a thread with no armed closure leaves the
thread state untouched. -/
theorem send_unarmed_thread (t : ThreadSt) (b : BotSt) (m : Message)
    (destIsUser from_mod : Bool) (h : t.closeTask = none) :
    (Thread.send t b m destIsUser from_mod).thread = t := by
  simp [Thread.send, h]

/-- A relay through `send` on a thread with no armed closure leaves the
persisted closures untouched. -/
theorem send_unarmed_closures (t : ThreadSt) (b : BotSt) (m : Message)
    (destIsUser from_mod : Bool) (h : t.closeTask = none) :
    (Thread.send t b m destIsUser from_mod).bot.closures = b.closures := by
  cases hfm : from_mod <;> by_cases hns : t.id ∈ b.notification_squad <;>
    simp [Thread.send, h, hfm, hns]

/-- A relay through `send` on a thread with no armed closure posts no
cancellation notice. -/
theorem send_unarmed_no_cancel (t : ThreadSt) (b : BotSt) (m : Message)
    (destIsUser from_mod : Bool) (h : t.closeTask = none) :
    (Thread.send t b m destIsUser from_mod).events.count Event.cancelNotice = 0 := by
  cases hfm : from_mod <;> cases hdu : destIsUser <;>
    cases he : m.attachments.isEmpty <;> by_cases hns : t.id ∈ b.notification_squad <;>
      simp [Thread.send, h, hfm, hdu, he, hns, List.count_append, List.count_cons]

/-- A relay through `send` on a thread with an armed closure clears the
timer handle. -/
theorem send_armed_closeTask (t : ThreadSt) (b : BotSt) (m : Message)
    (destIsUser from_mod : Bool) (u : Unit) (h : t.closeTask = some u) :
    (Thread.send t b m destIsUser from_mod).thread.closeTask = none := by
  cases hfm : from_mod <;> simp [Thread.send, h, cancel_closure_eq, hfm]

/-- A relay through `send` on a thread with an armed closure removes the
persisted pending-closure record. -/
theorem send_armed_closures (t : ThreadSt) (b : BotSt) (m : Message)
    (destIsUser from_mod : Bool) (u : Unit) (h : t.closeTask = some u) :
    (Thread.send t b m destIsUser from_mod).bot.closures.find?
      (fun p => p.1 == t.id) = none := by
  cases hfm : from_mod <;>
    by_cases hns : t.id ∈ b.notification_squad <;>
      simp [Thread.send, h, cancel_closure_eq, hfm, hns, find?_filter_ne]

/-- A relay through `send` on a thread with an armed closure posts exactly
one cancellation notice. -/
theorem send_armed_one_cancel (t : ThreadSt) (b : BotSt) (m : Message)
    (destIsUser from_mod : Bool) (u : Unit) (h : t.closeTask = some u) :
    (Thread.send t b m destIsUser from_mod).events.count Event.cancelNotice = 1 := by
  cases hfm : from_mod <;> cases hdu : destIsUser <;>
    cases he : m.attachments.isEmpty <;> by_cases hns : t.id ∈ b.notification_squad <;>
      cases hp : (b.closures.find? (fun p => p.1 == t.id)).isSome <;>
        simp [Thread.send, h, cancel_closure_eq, hfm, hdu, he, hns, hp,
          List.count_append, List.count_cons]

end Modmail

namespace Modmail

/-- Lemma: `cancel_closure` itself posts no cancellation notice (the notice is
posted by the relay path that calls it). -/
theorem cancel_closure_no_cancelNotice (t : ThreadSt) (b : BotSt) :
    (Thread.cancel_closure t b).2.2.count Event.cancelNotice = 0 := by
  cases h : t.closeTask <;>
    cases hp : (b.closures.find? (fun p => p.1 == t.id)).isSome <;>
      simp [cancel_closure_eq, h, hp, List.count_append, List.count_cons]

/-- C6 (amended): a `send`, and a `reply` that passes input validation with a
reachable correspondent, always clear an armed pending closure — the timer
handle becomes `none`, the persisted record is removed — and post exactly one
cancellation notice; a `reply` rejected by validation or short-circuited by
unreachability does not reach the cancellation step. -/
theorem claim6_relay_cancels_pending (t : ThreadSt) (b : BotSt) (m : Message)
    (destIsUser from_mod : Bool) (u : Unit) (h : t.closeTask = some u) :
    ((Thread.send t b m destIsUser from_mod).thread.closeTask = none ∧
      (Thread.send t b m destIsUser from_mod).events.count Event.cancelNotice = 1 ∧
      (Thread.send t b m destIsUser from_mod).bot.closures.find?
        (fun p => p.1 == t.id) = none) ∧
    ((m.content ≠ "" ∨ m.attachments ≠ []) →
      (Thread.reply t b m true).thread.closeTask = none ∧
      (Thread.reply t b m true).events.count Event.cancelNotice = 1 ∧
      (Thread.reply t b m true).bot.closures.find? (fun p => p.1 == t.id) = none) := by
  refine ⟨⟨send_armed_closeTask t b m destIsUser from_mod u h,
    send_armed_one_cancel t b m destIsUser from_mod u h,
    send_armed_closures t b m destIsUser from_mod u h⟩, ?_⟩
  intro hv
  have hc : (m.content == "" && m.attachments.isEmpty) = false := by
    rcases hv with hv | hv <;> simp [hv]
  have hrc1 : (Thread.cancel_closure t b).1.closeTask = none := by
    rw [cancel_closure_eq]
  have hrcid : (Thread.cancel_closure t b).1.id = t.id := by
    rw [cancel_closure_eq]
  have hs1t := send_unarmed_thread (Thread.cancel_closure t b).1
    (Thread.cancel_closure t b).2.1 m false true hrc1
  have hs1ct : (Thread.send (Thread.cancel_closure t b).1
      (Thread.cancel_closure t b).2.1 m false true).thread.closeTask = none := by
    rw [hs1t]; exact hrc1
  simp only [Thread.reply, hc, Bool.false_eq_true, if_false, Bool.not_true, h,
    Option.isSome_some, if_true]
  refine ⟨?_, ?_, ?_⟩
  · rw [send_unarmed_thread _ _ _ _ _ hs1ct, hs1t]
    exact hrc1
  · simp only [List.count_append, cancel_closure_no_cancelNotice,
      send_unarmed_no_cancel _ _ _ _ _ hrc1, send_unarmed_no_cancel _ _ _ _ _ hs1ct]
    decide
  · rw [send_unarmed_closures _ _ _ _ _ hs1ct, send_unarmed_closures _ _ _ _ _ hrc1,
      cancel_closure_eq]
    exact find?_filter_ne b.closures t.id

/-- C6 witness: with an armed closure, a staff `send` clears the timer and a
valid `reply` posts exactly one cancellation notice. -/
theorem claim6_witness :
    (Thread.send { id := 1, recipientSome := true, ready := true, closeTask := some () }
      { cache := [1], closures := [], subscriptions := [], notification_squad := [] }
      { content := "hi", attachments := [] } false true).thread.closeTask = none ∧
    (Thread.reply { id := 1, recipientSome := true, ready := true, closeTask := some () }
      { cache := [1], closures := [], subscriptions := [], notification_squad := [] }
      { content := "hi", attachments := [] } true).events.count Event.cancelNotice = 1 := by
  have h := claim6_relay_cancels_pending
    { id := 1, recipientSome := true, ready := true, closeTask := some () }
    { cache := [1], closures := [], subscriptions := [], notification_squad := [] }
    { content := "hi", attachments := [] } false true () rfl
  exact ⟨h.1.1, (h.2 (Or.inl (by decide))).2.1⟩

/-- C6 counterexample to the claim as stated: a `reply` carrying neither text
nor attachments raises the input-validation error and leaves the armed
closure in place, with zero cancellation notices posted. -/
theorem claim6_counterexample :
    (Thread.reply { id := 1, recipientSome := true, ready := true, closeTask := some () }
      { cache := [1], closures := [(1, { time := 10, closer_id := 9, silent := false, delete_channel := true, message := none })], subscriptions := [], notification_squad := [] }
      { content := "", attachments := [] } true).err = some PyErr.userInputError ∧
    (Thread.reply { id := 1, recipientSome := true, ready := true, closeTask := some () }
      { cache := [1], closures := [(1, { time := 10, closer_id := 9, silent := false, delete_channel := true, message := none })], subscriptions := [], notification_squad := [] }
      { content := "", attachments := [] } true).thread.closeTask = some () ∧
    (Thread.reply { id := 1, recipientSome := true, ready := true, closeTask := some () }
      { cache := [1], closures := [(1, { time := 10, closer_id := 9, silent := false, delete_channel := true, message := none })], subscriptions := [], notification_squad := [] }
      { content := "", attachments := [] } true).events.count Event.cancelNotice = 0 := by
  refine ⟨?_, ?_, ?_⟩ <;> decide

end Modmail

namespace Modmail

/-- Every candidate produced by `extractImages` passed the image-extension
test. -/
theorem extractImages_image (m : Message) :
    ∀ a ∈ extractImages m, is_image_urlL a.1 = true := by
  intro a ha
  simp only [extractImages, List.mem_append, List.mem_map, List.mem_filter] at ha
  rcases ha with ⟨x, ⟨_, hix⟩, rfl⟩ | ⟨l, ⟨_, hil⟩, rfl⟩
  · exact hix
  · exact hil

/-- When every uploaded attachment has a non-empty filename, no candidate of
`extractImages` carries the empty filename. -/
theorem extractImages_fname (m : Message) (hfn : ∀ a ∈ m.attachments, a.2 ≠ "") :
    ∀ a ∈ extractImages m, a.2 ≠ some "" := by
  intro a ha
  simp only [extractImages, List.mem_append, List.mem_map, List.mem_filter] at ha
  rcases ha with ⟨x, ⟨hx, _⟩, rfl⟩ | ⟨l, ⟨_, _⟩, rfl⟩
  · rcases hx with ⟨y, hy, rfl⟩
    intro hcon
    exact hfn y hy (Option.some.inj hcon)
  · simp

/-- With uploads not prioritized, every loop iteration re-embeds the image,
so the embed ends up holding the *last* candidate and no fields are
produced. -/
theorem procImages_false (l : List (List Char × Option String)) (s : ImgState)
    (h : l ≠ []) :
    (procImages false s l).imageUrl = l.getLast?.map Prod.fst ∧
    (procImages false s l).fields = s.fields := by
  induction l generalizing s with
  | nil => exact absurd rfl h
  | cons a rest ih =>
    cases rest with
    | nil => simp [procImages, procStep]
    | cons b' rest' =>
      have hres := ih (s := procStep false s a) (by simp)
      simp only [procImages] at hres ⊢
      refine ⟨?_, ?_⟩
      · rw [hres.1, List.getLast?_cons_cons]
      · rw [hres.2]
        simp [procStep]

/-- With uploads not prioritized the loop never adds a field, whatever the
candidate list. -/
theorem procImages_false_fields (l : List (List Char × Option String)) (s : ImgState) :
    (procImages false s l).fields = s.fields := by
  induction l generalizing s with
  | nil => rfl
  | cons a rest ih =>
    simp only [procImages]
    rw [ih]
    simp [procStep]

/-- Once an image is embedded (with uploads prioritized), the loop only adds
numbered `Additional Image upload` fields for the remaining uploads, in
order, and drops bare links. -/
theorem procImages_embedded (l : List (List Char × Option String)) (s : ImgState)
    (hemb : s.embedded = true) :
    procImages true s l =
      { s with
        fields := s.fields ++ specAdditionalFrom s.count (l.filter (fun a => a.2.isSome)),
        count := s.count + l.countP (fun a => a.2.isSome) } := by
  induction l generalizing s with
  | nil => simp [procImages, specAdditionalFrom]
  | cons a rest ih =>
    cases ha : a.2 with
    | none =>
      have hstep : procStep true s a = s := by
        simp [procStep, hemb, ha, pyTruthy]
      simp only [procImages, hstep, ih s hemb]
      simp [List.filter_cons, List.countP_cons, ha]
    | some f =>
      have hstep : procStep true s a =
          { s with
            fields := s.fields ++
              [("Additional Image upload (" ++ toString s.count ++ ")", imgLink a)],
            count := s.count + 1 } := by
        simp [procStep, hemb, ha]
      simp only [procImages, hstep]
      rw [ih _ (by simp [hemb])]
      simp only [List.filter_cons, List.countP_cons, ha, Option.isSome_some, if_true,
        specAdditionalFrom, ImgState.mk.injEq, List.append_assoc, List.cons_append,
        List.nil_append, List.singleton_append, true_and, and_true]
      all_goals omega

/-- Before anything is embedded (with uploads prioritized), the loop skips
bare links, embeds the first upload it meets, and then behaves as in the
embedded state. -/
theorem procImages_not_embedded (l : List (List Char × Option String)) (s : ImgState)
    (hemb : s.embedded = false)
    (himg : ∀ a ∈ l, is_image_urlL a.1 = true)
    (hfn : ∀ a ∈ l, a.2 ≠ some "") :
    (l.find? (fun x => x.2.isSome) = none → procImages true s l = s) ∧
    (∀ a, l.find? (fun x => x.2.isSome) = some a →
      (procImages true s l).imageUrl = some a.1 ∧
      (procImages true s l).fields =
        s.fields ++
          specAdditionalFrom s.count ((l.filter (fun x => x.2.isSome)).drop 1)) := by
  induction l generalizing s with
  | nil => simp [procImages]
  | cons a rest ih =>
    cases ha : a.2 with
    | none =>
      have hstep : procStep true s a = s := by
        simp [procStep, hemb, ha, pyTruthy]
      have hrest := ih s hemb (fun x hx => himg x (List.mem_cons_of_mem a hx))
        (fun x hx => hfn x (List.mem_cons_of_mem a hx))
      constructor
      · intro hnone
        rw [List.find?_cons_of_neg _ (by simp [ha])] at hnone
        simp only [procImages, hstep]
        exact hrest.1 hnone
      · intro x hx
        rw [List.find?_cons_of_neg _ (by simp [ha])] at hx
        simp only [procImages, hstep]
        have := hrest.2 x hx
        simpa [List.filter_cons, ha] using this
    | some f =>
      have hf : f ≠ "" := by
        intro hcon
        exact hfn a (List.mem_cons_self a rest) (by rw [ha, hcon])
      have hstep : procStep true s a = { s with imageUrl := some a.1, embedded := true } := by
        simp [procStep, hemb, ha, pyTruthy, himg a (List.mem_cons_self a rest), hf]
      constructor
      · intro hnone
        rw [List.find?_cons_of_pos _ (by simp [ha])] at hnone
        exact absurd hnone (by simp)
      · intro x hx
        rw [List.find?_cons_of_pos _ (by simp [ha])] at hx
        cases hx
        simp only [procImages, hstep]
        rw [procImages_embedded rest _ (by simp)]
        refine ⟨rfl, ?_⟩
        simp [List.filter_cons, ha]

end Modmail

namespace Modmail

/-- The counter-driven `File upload (N)` loop produces exactly the
enumeration of the non-image attachments. -/
theorem fileFields_eq_spec (l : List (String × String)) : ∀ n,
    fileFields n l = specFileFrom n l := by
  induction l with
  | nil => intro n; rfl
  | cons a rest ih =>
    intro n
    simp only [fileFields, specFileFrom, List.enumFrom, List.map]
    rw [ih (n + 1)]
    rfl

/-- C4 (amended): whenever the combined candidate list is non-empty, the
embed ends up with exactly one primary image: the first uploaded-attachment
image when any upload exists, otherwise the *last* candidate in combined
order (each bare link overwrites the previous embed). -/
theorem claim4_primary_image (m : Message)
    (hfn : ∀ a ∈ m.attachments, a.2 ≠ "")
    (hne : extractImages m ≠ []) :
    ((extractImages m).any (fun a => a.2.isSome) = true →
      ∃ a, (extractImages m).find? (fun x => x.2.isSome) = some a ∧
        a.2.isSome = true ∧
        (processImages (extractImages m)).imageUrl = some a.1) ∧
    ((extractImages m).any (fun a => a.2.isSome) = false →
      (processImages (extractImages m)).imageUrl =
        (extractImages m).getLast?.map Prod.fst) := by
  constructor
  · intro hany
    have hfind : ((extractImages m).find? (fun x => x.2.isSome)).isSome := by
      rw [List.find?_isSome]
      simpa [List.any_eq_true] using hany
    obtain ⟨a, ha⟩ := Option.isSome_iff_exists.mp hfind
    have hpa := List.find?_some ha
    refine ⟨a, ha, by simpa using hpa, ?_⟩
    have h := (procImages_not_embedded (extractImages m) {} rfl
      (extractImages_image m) (extractImages_fname m hfn)).2 a ha
    simp only [processImages, hany]
    exact h.1
  · intro hany
    simp only [processImages, hany]
    exact (procImages_false (extractImages m) {} hne).1

/-- C4 witness: with a single uploaded image and no links, the upload is the
primary image. -/
theorem claim4_witness :
    (processImages (extractImages
      { content := "", attachments := [("https://cdn.example.com/a.png", "a.png")] })).imageUrl =
      some ("https://cdn.example.com/a.png".toList) := by
  have h := (claim4_primary_image
    { content := "", attachments := [("https://cdn.example.com/a.png", "a.png")] }
    (by decide) (by decide)).1 (by decide)
  obtain ⟨a, ha, _, him⟩ := h
  rw [show (extractImages
      { content := "", attachments := [("https://cdn.example.com/a.png", "a.png")] }).find?
        (fun x => x.2.isSome) =
      some ("https://cdn.example.com/a.png".toList, some "a.png") from by decide] at ha
  cases ha
  exact him

/-- C4 counterexample to the claim as stated: two bare image links and no
upload make the *last* link primary, not the first candidate in combined
order. -/
theorem claim4_counterexample :
    (processImages (extractImages
      { content := "http://a.com/a.png http://a.com/b.png", attachments := [] })).imageUrl =
      some ("http://a.com/b.png".toList) ∧
    (extractImages
      { content := "http://a.com/a.png http://a.com/b.png", attachments := [] }).head? =
      some ("http://a.com/a.png".toList, none) ∧
    ("http://a.com/b.png".toList ≠ "http://a.com/a.png".toList) := by
  refine ⟨?_, ?_, ?_⟩ <;> decide

/-- C5 (amended): with uploads present, the numbered `Additional Image
upload` fields are exactly the uploaded images after the primary one (bare
links not chosen primary are dropped without a field); with no uploads no
fields are produced at all; and every non-image attachment becomes a
numbered `File upload` field. -/
theorem claim5_additional_and_file_fields (m : Message)
    (hfn : ∀ a ∈ m.attachments, a.2 ≠ "") :
    ((extractImages m).any (fun a => a.2.isSome) = true →
      (processImages (extractImages m)).fields =
        specAdditionalFrom 1 (((extractImages m).filter (fun a => a.2.isSome)).drop 1)) ∧
    ((extractImages m).any (fun a => a.2.isSome) = false →
      (processImages (extractImages m)).fields = []) ∧
    fileFields 1 (nonImageAtts m) = specFileFrom 1 (nonImageAtts m) := by
  refine ⟨?_, ?_, fileFields_eq_spec (nonImageAtts m) 1⟩
  · intro hany
    have hfind : ((extractImages m).find? (fun x => x.2.isSome)).isSome := by
      rw [List.find?_isSome]
      simpa [List.any_eq_true] using hany
    obtain ⟨a, ha⟩ := Option.isSome_iff_exists.mp hfind
    have h := (procImages_not_embedded (extractImages m) {} rfl
      (extractImages_image m) (extractImages_fname m hfn)).2 a ha
    simp only [processImages, hany]
    simpa using h.2
  · intro hany
    simp only [processImages, hany]
    exact procImages_false_fields (extractImages m) {}

/-- C5 witness: with two uploaded images, the second appears as
`Additional Image upload (1)`. -/
theorem claim5_witness :
    (processImages (extractImages
      { content := "",
        attachments := [("https://cdn.example.com/a.png", "a.png"),
          ("https://cdn.example.com/b.png", "b.png")] })).fields =
      [("Additional Image upload (1)", "[b.png](https://cdn.example.com/b.png)")] := by
  have h := (claim5_additional_and_file_fields
    { content := "",
      attachments := [("https://cdn.example.com/a.png", "a.png"),
        ("https://cdn.example.com/b.png", "b.png")] }
    (by decide)).1 (by decide)
  rw [h]
  decide

/-- C5 counterexample to the claim as stated: in the scenario of the spec itself —
one uploaded `photo.PNG` and one bare link `http://x.com/pic.jpg` — the
upload is primary but the bare link is dropped entirely: no
`Additional Image upload (1)` field is produced. -/
theorem claim5_counterexample :
    (processImages (extractImages
      { content := "http://x.com/pic.jpg",
        attachments := [("https://cdn.discordapp.com/photo.PNG", "photo.PNG")] })).fields =
      [] ∧
    (processImages (extractImages
      { content := "http://x.com/pic.jpg",
        attachments := [("https://cdn.discordapp.com/photo.PNG", "photo.PNG")] })).imageUrl =
      some ("https://cdn.discordapp.com/photo.PNG".toList) := by
  refine ⟨?_, ?_⟩ <;> decide

end Modmail

namespace Modmail

/-- A list starts with itself followed by anything. -/
theorem startsWithL_append_self (p l : List Char) : startsWithL p (p ++ l) = true := by
  induction p with
  | nil => rfl
  | cons c cs ih => simp [startsWithL, ih]

/-- A list contains any of its leading segments. -/
theorem containsL_append_self (p l : List Char) : containsL p (p ++ l) = true := by
  cases p with
  | nil => cases l <;> simp [containsL, startsWithL]
  | cons c cs =>
    have h := startsWithL_append_self (c :: cs) l
    simp only [List.cons_append] at h
    simp [containsL, h]

/-- Lemma: `dropWhile` jumps over a block whose members all satisfy the
predicate. -/
theorem dropWhileAll {p : Char → Bool} (l1 l2 : List Char)
    (h : ∀ c ∈ l1, p c = true) : (l1 ++ l2).dropWhile p = l2.dropWhile p := by
  induction l1 with
  | nil => simp
  | cons c cs ih =>
    simp only [List.cons_append, List.dropWhile_cons, h c (List.mem_cons_self c cs),
      if_true]
    exact ih (fun x hx => h x (List.mem_cons_of_mem c hx))

/-- Lemma: `takeWhile` keeps a list all of whose members satisfy the predicate. -/
theorem takeWhileAll {p : Char → Bool} (l : List Char)
    (h : ∀ c ∈ l, p c = true) : l.takeWhile p = l := by
  induction l with
  | nil => rfl
  | cons c cs ih =>
    simp only [List.takeWhile_cons, h c (List.mem_cons_self c cs), if_true]
    rw [ih (fun x hx => h x (List.mem_cons_of_mem c hx))]

/-- On `"User ID: "` followed by a non-empty digit run, the first digit run
of the whole string is exactly that run. -/
theorem firstDigitRun_pat (ds : List Char) (h1 : ds ≠ [])
    (h2 : ∀ c ∈ ds, c.isDigit = true) :
    firstDigitRun (userIdPat ++ ds) = some ds := by
  obtain ⟨d, ds', rfl⟩ := List.exists_cons_of_ne_nil h1
  have hd : d.isDigit = true := h2 d (List.mem_cons_self _ _)
  simp only [firstDigitRun]
  rw [dropWhileAll userIdPat (d :: ds') (by decide)]
  rw [List.dropWhile_cons]
  simp only [hd, Bool.not_true, Bool.false_eq_true, if_false]
  rw [takeWhileAll (d :: ds') h2]
  simp

/-- The bounded history scan finds the first genesis match when it lies
within the lookback window. -/
theorem scanHistory_prefix (gm : HistMsg) (rest : List HistMsg) (n : Nat)
    (pre : List HistMsg) : ∀ limit, pre.length < limit →
    (∀ p ∈ pre, ThreadManager.msgMatch p = none) →
    ThreadManager.msgMatch gm = some n →
    ThreadManager.scanHistory limit (pre ++ gm :: rest) = some n := by
  induction pre with
  | nil =>
    intro limit hl _ hg
    cases limit with
    | zero => omega
    | succ l => simp [ThreadManager.scanHistory, hg]
  | cons p pre ih =>
    intro limit hl hp hg
    cases limit with
    | zero => omega
    | succ l =>
      simp only [List.cons_append, ThreadManager.scanHistory,
        hp p (List.mem_cons_self p pre)]
      exact ih l (by simpa using hl) (fun q hq => hp q (List.mem_cons_of_mem p hq)) hg

/-- C3 (amended): a channel whose topic is `"User ID: {digits}"` recovers
that id without consulting history (the result is independent of the
history), and a channel with *no* topic falls back to the bounded 50-item
history scan and recovers the id from the first genesis match; a present but
corrupted topic, however, yields no recovery (see the counterexample). -/
theorem claim3_find_from_channel (b : BotSt) (ds : List Char) (n : Nat)
    (hds : ds ≠ []) (hdig : ∀ c ∈ ds, c.isDigit = true) :
    (∀ hist hist' : List HistMsg,
      ThreadManager._find_from_channel b
          { topic := some ("User ID: " ++ String.mk ds), history := hist } =
        ThreadManager._find_from_channel b
          { topic := some ("User ID: " ++ String.mk ds), history := hist' } ∧
      (ThreadManager._find_from_channel b
          { topic := some ("User ID: " ++ String.mk ds), history := hist }).res =
        Except.ok (some (natFromDigits ds))) ∧
    (∀ (pre : List HistMsg) (gm : HistMsg) (rest : List HistMsg),
      pre.length < 50 → (∀ p ∈ pre, ThreadManager.msgMatch p = none) →
      ThreadManager.msgMatch gm = some n →
      (ThreadManager._find_from_channel b
          { topic := none, history := pre ++ gm :: rest }).res =
        Except.ok (some n)) := by
  have hdata : ("User ID: " ++ String.mk ds).toList = userIdPat ++ ds := by
    show ("User ID: " ++ String.mk ds).data = userIdPat ++ ds
    rw [String.data_append]
    rfl
  have h1 : (("User ID: " ++ String.mk ds) != "") = true := by
    rw [bne_iff_ne]
    intro hcon
    have hd2 : ("User ID: " ++ String.mk ds).data = ([] : List Char) := by
      rw [hcon]
    rw [show ("User ID: " ++ String.mk ds).data = userIdPat ++ ds from hdata] at hd2
    rcases List.append_eq_nil.mp hd2 with ⟨hu, _⟩
    exact absurd hu (by decide)
  have h2 : containsL userIdPat ("User ID: " ++ String.mk ds).toList = true := by
    rw [hdata]; exact containsL_append_self userIdPat ds
  have h3 : firstDigitRun ("User ID: " ++ String.mk ds).toList = some ds := by
    rw [hdata]; exact firstDigitRun_pat ds hds hdig
  constructor
  · intro hist hist'
    constructor
    · simp only [ThreadManager._find_from_channel, h1, h2, h3, Bool.and_self,
        Bool.true_and, if_true]
    · simp only [ThreadManager._find_from_channel, h1, h2, h3, Bool.and_self,
        Bool.true_and, if_true]
      by_cases hmem : natFromDigits ds ∈ b.cache <;> simp [hmem]
  · intro pre gm rest hlen hpre hgm
    have hscan := scanHistory_prefix gm rest n pre 50 hlen hpre hgm
    simp only [ThreadManager._find_from_channel, hscan]
    by_cases hmem : n ∈ b.cache <;> simp [hmem]

/-- C3 witness: topic `"User ID: 42"` recovers 42 with no history, and a
topic-less channel with a genesis card `"User ID: 42"` recovers 42 via the
fallback scan. -/
theorem claim3_witness :
    (ThreadManager._find_from_channel
        { cache := [], closures := [], subscriptions := [], notification_squad := [] }
        { topic := some ("User ID: " ++ String.mk ['4', '2']), history := [] }).res =
      Except.ok (some 42) ∧
    (ThreadManager._find_from_channel
        { cache := [], closures := [], subscriptions := [], notification_squad := [] }
        { topic := none,
          history := [] ++ { embeds := [{ footerText := "User ID: 42" }] } :: [] }).res =
      Except.ok (some 42) := by
  have h := claim3_find_from_channel
    { cache := [], closures := [], subscriptions := [], notification_squad := [] }
    ['4', '2'] 42 (by decide) (by decide)
  refine ⟨?_, ?_⟩
  · have := (h.1 [] []).2
    rw [this]
    decide
  · exact h.2 [] { embeds := [{ footerText := "User ID: 42" }] } [] (by decide)
      (by intro p hp; cases hp) (by decide)

/-- C3 counterexample to the claim as stated: a channel whose topic is
present but corrupted (carries no id) does *not* fall back to the history
scan — the genesis card with `"User ID: 42"` is ignored and no thread is
recovered. -/
theorem claim3_counterexample :
    (ThreadManager._find_from_channel
        { cache := [], closures := [], subscriptions := [], notification_squad := [] }
        { topic := some "broken topic",
          history := [{ embeds := [{ footerText := "User ID: 42" }] }] }).res =
      Except.ok none := by
  decide

end Modmail

namespace Modmail

/-- Lemma: `Char.toLower` never lands in the uppercase ASCII range. -/
theorem toLower_not_upper (c : Char) :
    ¬(65 ≤ (Char.toLower c).toNat ∧ (Char.toLower c).toNat ≤ 90) := by
  simp only [Char.toLower]
  split
  · next h =>
    obtain ⟨h1, h2⟩ := h
    set n := c.toNat with hn
    interval_cases n <;> decide
  · next h =>
    intro hcon
    exact h ⟨hcon.1, hcon.2⟩

/-- Every uppercase ASCII letter has a code point in `[65, 90]`. -/
theorem mem_uppercase_bounds :
    ∀ d ∈ ThreadManager.ascii_uppercase, 65 ≤ d.toNat ∧ d.toNat ≤ 90 := by decide

/-- On lowercased characters, membership in the set `allowed` of the source
(which also lists uppercase letters) agrees with membership in the spec's
`[a-z0-9-]` class. -/
theorem allowed_iff_spec (c : Char) :
    Char.toLower c ∈ ThreadManager.allowedChars ↔
      Char.toLower c ∈ ThreadManager.specAllowedChars := by
  have hupper : Char.toLower c ∉ ThreadManager.ascii_uppercase := fun hmem =>
    toLower_not_upper c (mem_uppercase_bounds _ hmem)
  simp only [ThreadManager.allowedChars, ThreadManager.specAllowedChars,
    ThreadManager.ascii_letters, List.mem_append] at hupper ⊢
  tauto

/-- Filtering a lowercased name through the set `allowed` of the source equals
filtering it through the class `[a-z0-9-]` of the spec. -/
theorem filter_allowed_eq (l : List Char) :
    (l.map Char.toLower).filter (fun c => decide (c ∈ ThreadManager.allowedChars)) =
      (l.map Char.toLower).filter (fun c => decide (c ∈ ThreadManager.specAllowedChars)) := by
  apply List.filter_congr
  intro d hd
  rcases List.mem_map.mp hd with ⟨c, _, rfl⟩
  simp only [decide_eq_decide]
  exact allowed_iff_spec c

/-- The sanitised base name of the source coincides with the reading of the spec of
it. -/
theorem base_eq_spec (authorName disc : List Char) :
    ThreadManager._format_channel_name_base authorName disc =
      ThreadManager.specChannelBase authorName disc := by
  simp only [ThreadManager._format_channel_name_base, ThreadManager.specChannelBase]
  rw [filter_allowed_eq]

/-- Strict decrease of `countP` when an element satisfying `p` but not `q`
is present and `q` implies `p`. -/
theorem countP_lt_of_mem {α : Type} (l : List α) (a : α) (p q : α → Bool)
    (ha : a ∈ l) (hpa : p a = true) (hqa : q a = false)
    (himp : ∀ x, q x = true → p x = true) :
    l.countP q < l.countP p := by
  induction l with
  | nil => cases ha
  | cons b rest ih =>
    rcases List.mem_cons.mp ha with rfl | hmem
    · have hle : rest.countP q ≤ rest.countP p :=
        List.countP_mono_left (fun x _ hqx => himp x hqx)
      simp [List.countP_cons, hpa, hqa]
      omega
    · by_cases hqb : q b
      · have hpb := himp b hqb
        have hlt := ih hmem
        simp [List.countP_cons, hqb, hpb]
        omega
      · have hlt := ih hmem
        simp only [List.countP_cons, hqb, Bool.false_eq_true, if_false]
        have hge : rest.countP p ≤ rest.countP p + (if p b = true then 1 else 0) := by
          split <;> omega
        omega

/-- With enough fuel, the collision loop of `_format_channel_name` always
escapes the existing-name list. -/
theorem uniquify_not_mem (ex : List (List Char)) : ∀ (fuel : Nat) (n : List Char),
    ex.countP (fun s => decide (n.length ≤ s.length)) < fuel →
    ThreadManager.uniquify fuel n ex ∉ ex := by
  intro fuel
  induction fuel with
  | zero => intro n h; omega
  | succ f ih =>
    intro n h
    by_cases hmem : n ∈ ex
    · simp only [ThreadManager.uniquify, hmem, if_true]
      apply ih
      have hlt : ex.countP (fun s => decide ((n ++ "-x".toList).length ≤ s.length)) <
          ex.countP (fun s => decide (n.length ≤ s.length)) := by
        apply countP_lt_of_mem ex n _ _ hmem
        · simp
        · simp only [decide_eq_false_iff_not, List.length_append,
            show ("-x".toList).length = 2 from rfl]
          omega
        · intro x hx
          simp only [decide_eq_true_eq, List.length_append,
            show ("-x".toList).length = 2 from rfl] at hx ⊢
          omega
      omega
    · simp [ThreadManager.uniquify, hmem]

/-- C8: the derived channel name is the handle lowercased, filtered to
`[a-z0-9-]` (with `"null"` substituted when empty), suffixed with the
discriminator; with no collision it is returned as is; the returned name
never collides with an existing channel name; and a second thread whose base
name collides with the first receives a distinct final name. -/
theorem claim8_channel_name (authorName disc : List Char) (existing : List (List Char)) :
    (ThreadManager._format_channel_name_base authorName disc =
      ThreadManager.specChannelBase authorName disc) ∧
    (ThreadManager._format_channel_name_base authorName disc ∉ existing →
      ThreadManager._format_channel_name authorName disc existing =
        ThreadManager._format_channel_name_base authorName disc) ∧
    ThreadManager._format_channel_name authorName disc existing ∉ existing ∧
    ThreadManager._format_channel_name authorName disc
        (ThreadManager._format_channel_name authorName disc existing :: existing) ≠
      ThreadManager._format_channel_name authorName disc existing := by
  refine ⟨base_eq_spec authorName disc, ?_, ?_, ?_⟩
  · intro h
    simp [ThreadManager._format_channel_name, ThreadManager.uniquify, h]
  · apply uniquify_not_mem
    have := List.countP_le_length
      (p := fun s : List Char =>
        decide ((ThreadManager._format_channel_name_base authorName disc).length ≤ s.length))
      (l := existing)
    omega
  · intro hcon
    have hnm := uniquify_not_mem
      (ThreadManager._format_channel_name authorName disc existing :: existing)
      ((ThreadManager._format_channel_name authorName disc existing :: existing).length + 1)
      (ThreadManager._format_channel_name_base authorName disc)
      (by
        have := List.countP_le_length
          (p := fun s : List Char =>
            decide ((ThreadManager._format_channel_name_base authorName disc).length ≤ s.length))
          (l := ThreadManager._format_channel_name authorName disc existing :: existing)
        omega)
    rw [show ThreadManager.uniquify
        ((ThreadManager._format_channel_name authorName disc existing :: existing).length + 1)
        (ThreadManager._format_channel_name_base authorName disc)
        (ThreadManager._format_channel_name authorName disc existing :: existing) =
        ThreadManager._format_channel_name authorName disc
          (ThreadManager._format_channel_name authorName disc existing :: existing) from rfl]
      at hnm
    rw [hcon] at hnm
    exact hnm (List.mem_cons_self _ _)

/-- C8 witness: `Bob!` with discriminator `1234` and no existing channels
yields the sanitised name `bob-1234`. -/
theorem claim8_witness :
    ThreadManager._format_channel_name ("Bob!".toList) ("1234".toList) [] =
      "bob-1234".toList := by
  have h := (claim8_channel_name ("Bob!".toList) ("1234".toList) []).2.1 (by decide)
  rw [h]
  decide

end Modmail
